import Mathlib

/-!
Verification of the resilient market-data streaming client (`polymarket-rs`,
modules `src/websocket/market.rs` and the `ReconnectingStream` driver).

The per-frame decoding pipeline of `MarketWsClient::subscribe` is embedded
from `src/websocket/market.rs`.  The crate's `types` module (the event
shapes) and the `serde_json` library are external to the sources, so text
frames are represented by their JSON parse result: an inbound text frame
carries `some j` when its payload is valid JSON with value `j`, and `none`
when the payload is not valid JSON.  The `ReconnectingStream` driver
(`src/websocket/stream.rs`) is not part of the sources and is modelled from
the specification's state machine.
-/

namespace PolymarketRs

/-- Generic JSON value, standing for `serde_json::Value`.  Numbers are
modelled as exact rationals (the spec asks for arbitrary-precision
decimals). -/
inductive Json where
  | null : Json
  | bool (b : Bool) : Json
  | num (q : ℚ) : Json
  | str (s : String) : Json
  | arr (elems : List Json) : Json
  | obj (fields : List (String × Json)) : Json

/-- Modelled from the spec: one price level of a book snapshot (the crate's
`types::PriceLevel`, not under `src/`): price and size as exact decimals. -/
structure PriceLevel where
  price : ℚ
  size : ℚ
deriving DecidableEq, Repr

/-- Modelled from the spec: a full order-book snapshot (the crate's
`types::BookEvent`, not under `src/`). -/
structure BookEvent where
  market : String
  asset_id : String
  bids : List PriceLevel
  asks : List PriceLevel
deriving DecidableEq, Repr

/-- Side of an order-book delta. -/
inductive Side where
  | buy : Side
  | sell : Side
deriving DecidableEq, Repr

/-- Modelled from the spec: one side/price/size delta (the crate's
`types::PriceChange`, not under `src/`). -/
structure PriceChange where
  side : Side
  price : ℚ
  size : ℚ
deriving DecidableEq, Repr

/-- Modelled from the spec: an incremental update event (the crate's
`types::PriceChangeEvent`, not under `src/`). -/
structure PriceChangeEvent where
  market : String
  price_changes : List PriceChange
deriving DecidableEq, Repr

/-- Modelled from the spec: the Decoded Event, a tagged variant over a book
snapshot and a price change (the crate's `types::WsEvent`, not under
`src/`). -/
inductive WsEvent where
  | Book (b : BookEvent) : WsEvent
  | PriceChange (p : PriceChangeEvent) : WsEvent
deriving DecidableEq, Repr

/-- The error variants of `crate::error::Error` that the market stream
constructs (`Json` for a failed event decode, `ConnectionClosed` for a close
frame, `WebSocket` for everything else).  Serde error values are modelled
as their message strings. -/
inductive Error where
  | Json (msg : String) : Error
  | ConnectionClosed : Error
  | WebSocket (msg : String) : Error
deriving DecidableEq, Repr

/-- Field lookup in a JSON object, standing for indexing a serde map. -/
def lookupField (fields : List (String × Json)) (key : String) : Option Json :=
  match fields with
  | [] => none
  | (k, v) :: rest => if k = key then some v else lookupField rest key

/-- Expect a JSON string. -/
def Json.asStr : Json → Except String String
  | .str s => Except.ok s
  | _ => Except.error "expected a JSON string"

/-- Expect a JSON number. -/
def Json.asNum : Json → Except String ℚ
  | .num q => Except.ok q
  | _ => Except.error "expected a JSON number"

/-- Expect a JSON array. -/
def Json.asArr : Json → Except String (List Json)
  | .arr xs => Except.ok xs
  | _ => Except.error "expected a JSON array"

/-- Required string field of a JSON object. -/
def getStr (fields : List (String × Json)) (key : String) : Except String String :=
  match lookupField fields key with
  | some v => v.asStr
  | none => Except.error ("missing field " ++ key)

/-- Required numeric field of a JSON object. -/
def getNum (fields : List (String × Json)) (key : String) : Except String ℚ :=
  match lookupField fields key with
  | some v => v.asNum
  | none => Except.error ("missing field " ++ key)

/-- Required array field of a JSON object. -/
def getArr (fields : List (String × Json)) (key : String) : Except String (List Json) :=
  match lookupField fields key with
  | some v => v.asArr
  | none => Except.error ("missing field " ++ key)

/-- Modelled from the spec: serde decoding of one price level. -/
def decodePriceLevel (j : Json) : Except String PriceLevel :=
  match j with
  | .obj fields => do
      let price ← getNum fields "price"
      let size ← getNum fields "size"
      Except.ok { price := price, size := size }
  | _ => Except.error "expected an object for a price level"

/-- Modelled from the spec: serde decoding of the side tag. -/
def decodeSide (j : Json) : Except String Side :=
  match j with
  | .str s =>
      if s = "BUY" then Except.ok Side.buy
      else if s = "SELL" then Except.ok Side.sell
      else Except.error "expected BUY or SELL"
  | _ => Except.error "expected a string side"

/-- Modelled from the spec: serde decoding of one side/price/size delta. -/
def decodePriceChange (j : Json) : Except String PriceChange :=
  match j with
  | .obj fields => do
      let sideJson ←
        match lookupField fields "side" with
        | some v => Except.ok v
        | none => Except.error "missing field side"
      let side ← decodeSide sideJson
      let price ← getNum fields "price"
      let size ← getNum fields "size"
      Except.ok { side := side, price := price, size := size }
  | _ => Except.error "expected an object for a price change"

/-- Modelled from the spec: serde decoding of a book snapshot's fields. -/
def decodeBookEvent (fields : List (String × Json)) : Except String BookEvent := do
  let market ← getStr fields "market"
  let asset_id ← getStr fields "asset_id"
  let bidsJson ← getArr fields "bids"
  let asksJson ← getArr fields "asks"
  let bids ← bidsJson.mapM decodePriceLevel
  let asks ← asksJson.mapM decodePriceLevel
  Except.ok { market := market, asset_id := asset_id, bids := bids, asks := asks }

/-- Modelled from the spec: serde decoding of a price-change event's fields. -/
def decodePriceChangeEvent (fields : List (String × Json)) : Except String PriceChangeEvent := do
  let market ← getStr fields "market"
  let changesJson ← getArr fields "price_changes"
  let changes ← changesJson.mapM decodePriceChange
  Except.ok { market := market, price_changes := changes }

/-- Modelled from the spec: `serde_json::from_value::<WsEvent>` — the tagged
deserialization of a Decoded Event from a generic JSON value (the crate's
`types` module is not under `src/`). -/
def decodeWsEvent (j : Json) : Except String WsEvent :=
  match j with
  | .obj fields =>
      match lookupField fields "event_type" with
      | some (.str tag) =>
          if tag = "book" then (decodeBookEvent fields).map WsEvent.Book
          else if tag = "price_change" then
            (decodePriceChangeEvent fields).map WsEvent.PriceChange
          else Except.error "unrecognized event_type"
      | some _ => Except.error "event_type is not a string"
      | none => Except.error "missing event_type"
  | _ => Except.error "expected a JSON object"

/-- Decoding one JSON value into a stream item: an `Ok` event on success, a
`Error::Json` error item on failure (`src/websocket/market.rs`,
lines 151-154 and 162-165 both follow this shape). -/
def decodeItem (j : Json) : Except Error WsEvent :=
  match decodeWsEvent j with
  | .ok event => Except.ok event
  | .error e => Except.error (Error.Json e)

/-- One inbound transport frame (`tungstenite::Message`).  A text frame is
represented by its JSON parse result: `some j` when the payload is valid
JSON with value `j`, `none` when it is not valid JSON.  Payloads of binary,
ping, pong, close and raw frames never influence the code's behaviour and
are omitted. -/
inductive Message where
  | text (payload : Option Json) : Message
  | binary : Message
  | ping : Message
  | pong : Message
  | close : Message
  | frame : Message

/-- Text-frame handling of `MarketWsClient::subscribe`
(`src/websocket/market.rs`, lines 145-166): try to parse the payload as an
array of generic values; on a non-empty array decode only the first element;
on an empty array produce nothing; otherwise fall back to decoding the whole
payload as a single event.  A `None` result models a message filtered out by
`filter_map`. -/
def handleText (payload : Option Json) : Option (Except Error WsEvent) :=
  match payload with
  | some (.arr events) =>
      match events with
      | first :: _ =>
          match decodeWsEvent first with
          | .ok event => some (Except.ok event)
          | .error e => some (Except.error (Error.Json e))
      | [] => none
  | _ =>
      match payload with
      | some j =>
          match decodeWsEvent j with
          | .ok event => some (Except.ok event)
          | .error e => some (Except.error (Error.Json e))
      | none => some (Except.error (Error.Json "invalid JSON"))

/-- Per-frame dispatch of `MarketWsClient::subscribe`
(`src/websocket/market.rs`, lines 143-190): the body of the `filter_map`
closure over `Result<Message, tungstenite::Error>` items.  Transport-level
read errors are modelled by their message strings. -/
def processMsg : Except String Message → Option (Except Error WsEvent)
  | .ok (.text payload) => handleText payload
  | .ok .close => some (Except.error Error.ConnectionClosed)
  | .ok .ping => none
  | .ok .pong => none
  | .ok .binary => some (Except.error (Error.WebSocket "Unexpected binary message"))
  | .ok .frame => none
  | .error e => some (Except.error (Error.WebSocket e))

/-- The whole-session view of `read.filter_map(...)`: the list of items the
returned stream yields for a given list of inbound frames. -/
def processFrames (msgs : List (Except String Message)) : List (Except Error WsEvent) :=
  msgs.filterMap processMsg

/-- Stated from the spec's words for the claim under test (C5): the claimed
fallback behaviour of a text frame — parse the whole text as a single
Decoded Event — as a function of the payload's parse result.  Compared
against `handleText`/`processMsg`, which embed the source. -/
def fallbackSingle (payload : Option Json) : Option (Except Error WsEvent) :=
  match payload with
  | some j => some (decodeItem j)
  | none => some (Except.error (Error.Json "invalid JSON"))

/-- The market WebSocket client (`src/websocket/market.rs`, lines 57-60). -/
structure MarketWsClient where
  ws_url : String

/-- Default WebSocket URL for market data (`src/websocket/market.rs`, line 64). -/
def MarketWsClient.DEFAULT_WS_URL : String :=
  "wss://ws-subscriptions-clob.polymarket.com/ws/market"

/-- Constructor using the default endpoint (`src/websocket/market.rs`, lines 67-71). -/
def MarketWsClient.new : MarketWsClient :=
  { ws_url := MarketWsClient.DEFAULT_WS_URL }

/-- Constructor with a custom endpoint (`src/websocket/market.rs`, lines 74-78). -/
def MarketWsClient.with_url (u : String) : MarketWsClient :=
  { ws_url := u }

/-- The subscription payload (the crate's `types::MarketSubscription`; its
single field name `assets_ids` appears in `src/websocket/market.rs`,
line 131). -/
structure MarketSubscription where
  assets_ids : List String

/-- Serde serialization of the subscription payload:
`serde_json::to_string(&subscription)` produces one JSON object of shape
with the single key `assets_ids` mapped to the array of identifiers. -/
def serializeSubscription (sub : MarketSubscription) : Json :=
  Json.obj [("assets_ids", Json.arr (sub.assets_ids.map Json.str))]

/-- One externally visible transport action of `subscribe`. -/
inductive WsAction where
  | connect (url : String) : WsAction
  | sendText (payload : Json) : WsAction
  | processInbound : WsAction

/-- Whether an action is an outbound write. -/
def WsAction.isSend : WsAction → Bool
  | .sendText _ => true
  | _ => false

/-- The ordered effect sequence of `MarketWsClient::subscribe`
(`src/websocket/market.rs`, lines 119-193) on the success path: connect to
the endpoint, send the serialized subscription as the one outbound frame,
then hand the read half to the `filter_map` pipeline (`processFrames`).
No other transport action occurs in the function body. -/
def MarketWsClient.subscribe (c : MarketWsClient) (token_ids : List String) : List WsAction :=
  [WsAction.connect c.ws_url,
   WsAction.sendText (serializeSubscription { assets_ids := token_ids }),
   WsAction.processInbound]

/-!
The `ReconnectingStream` driver.  The module `src/websocket/stream.rs` is
declared by `src/websocket/mod.rs` but its source is not part of the
repository snapshot, so the driver is modelled from the specification's
state machine (spec sections 4.2 and 8) and from the `ReconnectConfig`
literals in the doc examples.
-/

/-- Modelled from the spec: the Backoff Policy (`ReconnectConfig` of the
missing `src/websocket/stream.rs`; field names from the doc examples in
`src/websocket/mod.rs`, lines 97-102).  Delays are exact rational seconds. -/
structure ReconnectConfig where
  initial_delay : ℚ
  max_delay : ℚ
  multiplier : ℚ
  max_attempts : Option Nat

/-- Modelled from the spec: backoff growth,
`next = min(max_delay, current * multiplier)` (spec section 4.2). -/
def nextDelay (cfg : ReconnectConfig) (current : ℚ) : ℚ :=
  min cfg.max_delay (current * cfg.multiplier)

/-- Modelled from the spec: whether the attempt counter has consumed the
optional cap (`max_attempts = None` never exhausts). -/
def capReached (cfg : ReconnectConfig) (attempts : Nat) : Bool :=
  match cfg.max_attempts with
  | none => false
  | some n => decide (n ≤ attempts)

/-- Driver phases of the spec's state machine (spec section 4.2). -/
inductive Phase where
  | idle : Phase
  | connecting : Phase
  | streaming : Phase
  | backoff : Phase
  | exhausted : Phase
deriving DecidableEq, Repr

/-- Modelled from the spec: the Driver's mutable state — phase, Backoff
State (current delay, attempts since last success) and the immutable
subscription identifiers captured by the factory closure. -/
structure DriverState where
  phase : Phase
  delay : ℚ
  attempts : Nat
  subIds : List String

deriving instance DecidableEq for Except

/-- Events the environment feeds to the Driver: a poll that may start a
connection attempt, the outcome of a factory invocation, one item of the
inner stream, or the inner stream's end (with the error that caused it,
if any). -/
inductive DriverInput where
  | poll : DriverInput
  | factoryOk : DriverInput
  | factoryErr (e : Error) : DriverInput
  | innerItem (it : Except Error WsEvent) : DriverInput
  | innerEnd (cause : Option Error) : DriverInput
deriving DecidableEq

/-- Externally visible effects of one Driver step: forwarding an inner item,
emitting a reconnect-triggering error, arming the backoff timer, or invoking
the Connection Factory with the captured subscription identifiers. -/
inductive Effect where
  | fwd (it : Except Error WsEvent) : Effect
  | reErr (e : Error) : Effect
  | sleep (d : ℚ) : Effect
  | invoke (ids : List String) : Effect
deriving DecidableEq

/-- Whether an effect is a reconnect-triggering error emission. -/
def Effect.isReErr : Effect → Bool
  | .reErr _ => true
  | _ => false

namespace ReconnectingStream

/-- Modelled from the spec: one transition of the Driver state machine
(spec section 4.2).  A failed attempt emits the error, grows the delay,
bumps the counter and either arms the timer or exhausts; a successful
attempt resets the Backoff State; inner items are forwarded unchanged with
no state change; the exhausted phase is terminal and silent. -/
def step (cfg : ReconnectConfig) (s : DriverState) (i : DriverInput) :
    DriverState × List Effect :=
  match s.phase, i with
  | .exhausted, _ => (s, [])
  | .idle, .poll =>
      if capReached cfg s.attempts then ({ s with phase := .exhausted }, [])
      else ({ s with phase := .connecting }, [Effect.invoke s.subIds])
  | .backoff, .poll =>
      if capReached cfg s.attempts then ({ s with phase := .exhausted }, [])
      else ({ s with phase := .connecting }, [Effect.invoke s.subIds])
  | .connecting, .factoryOk =>
      ({ s with phase := .streaming, delay := cfg.initial_delay, attempts := 0 }, [])
  | .connecting, .factoryErr e =>
      let d := nextDelay cfg s.delay
      let a := s.attempts + 1
      if capReached cfg a then
        ({ s with phase := .exhausted, delay := d, attempts := a }, [Effect.reErr e])
      else
        ({ s with phase := .backoff, delay := d, attempts := a },
         [Effect.reErr e, Effect.sleep d])
  | .streaming, .innerItem it => (s, [Effect.fwd it])
  | .streaming, .innerEnd cause =>
      let d := nextDelay cfg s.delay
      let a := s.attempts + 1
      let errs := match cause with
        | some e => [Effect.reErr e]
        | none => []
      if capReached cfg a then
        ({ s with phase := .exhausted, delay := d, attempts := a }, errs)
      else
        ({ s with phase := .backoff, delay := d, attempts := a },
         errs ++ [Effect.sleep d])
  | _, _ => (s, [])

/-- Run the Driver over a list of inputs, collecting all effects. -/
def run (cfg : ReconnectConfig) (s : DriverState) :
    List DriverInput → DriverState × List Effect
  | [] => (s, [])
  | i :: rest =>
      let r1 := step cfg s i
      let r2 := run cfg r1.1 rest
      (r2.1, r1.2 ++ r2.2)

/-- The Driver's initial state for a given policy and subscription list. -/
def initState (cfg : ReconnectConfig) (ids : List String) : DriverState :=
  { phase := .idle, delay := cfg.initial_delay, attempts := 0, subIds := ids }

/-- A trace of `k` consecutive failed connection attempts. -/
def failTrace (e : Error) : Nat → List DriverInput
  | 0 => []
  | k + 1 => failTrace e k ++ [DriverInput.poll, DriverInput.factoryErr e]

end ReconnectingStream

/-!
Theorems.
-/

/-- C4: for every text frame whose payload parses as a non-empty JSON array
of events, the stream returned by `MarketWsClient::subscribe` emits exactly
one item, obtained by decoding only the first element of the array; the
remaining elements are ignored and never produce output (the result does
not depend on `rest`). -/
theorem array_first_event_only (first : Json) (rest : List Json) :
    processMsg (Except.ok (Message.text (some (Json.arr (first :: rest)))))
      = some (decodeItem first) := by
  cases h : decodeWsEvent first <;>
    simp [processMsg, handleText, decodeItem, h]

/-- C6: a text frame whose payload is the empty JSON array emits nothing —
no event and no error item — and has no effect on the rest of the session:
processing any frame list around it is unchanged.  Since the frame produces
no item, the Driver receives no input from it and its state is unchanged. -/
theorem empty_array_emits_nothing :
    processMsg (Except.ok (Message.text (some (Json.arr [])))) = none ∧
    ∀ pre post : List (Except String Message),
      processFrames (pre ++ Except.ok (Message.text (some (Json.arr []))) :: post)
        = processFrames (pre ++ post) := by
  refine ⟨rfl, ?_⟩
  intro pre post
  have h : processMsg (Except.ok (Message.text (some (Json.arr [])))) = none := rfl
  simp [processFrames, List.filterMap_append, List.filterMap_cons, h]

/-- C5, counterexample: on the empty JSON array the code does not fall back
to parsing the whole text as a single Decoded Event — it emits nothing,
while the claimed fallback would emit a decode-error item. -/
theorem empty_array_no_fallback_cex :
    processMsg (Except.ok (Message.text (some (Json.arr []))))
      ≠ fallbackSingle (some (Json.arr [])) := by
  decide

/-- C5, amended: for every text frame, if parsing the payload as a JSON
array fails (the payload is not a JSON array, or is not valid JSON), the
decoder falls back to parsing the whole text as a single Decoded Event;
if the parse succeeds with an empty array, nothing is emitted and no
fallback occurs. -/
theorem fallback_only_on_array_parse_failure :
    (∀ payload : Option Json, (∀ xs, payload ≠ some (Json.arr xs)) →
        processMsg (Except.ok (Message.text payload)) = fallbackSingle payload) ∧
    processMsg (Except.ok (Message.text (some (Json.arr [])))) = none := by
  refine ⟨?_, rfl⟩
  intro payload h
  match payload with
  | none => rfl
  | some (.null) => rfl
  | some (.bool b) => rfl
  | some (.num q) => rfl
  | some (.str s) => rfl
  | some (.obj fields) =>
      cases hd : decodeWsEvent (.obj fields) <;>
        simp [processMsg, handleText, fallbackSingle, decodeItem, hd]
  | some (.arr xs) => exact absurd rfl (h xs)

/-- C5, witness for the amended claim at a concrete non-array payload. -/
theorem fallback_only_on_array_parse_failure_witness :
    processMsg (Except.ok (Message.text (some (Json.str "hi"))))
      = fallbackSingle (some (Json.str "hi")) :=
  fallback_only_on_array_parse_failure.1 (some (Json.str "hi")) (by simp)

/-- Helper: every error item a text frame produces is a `Json` decode
error. -/
theorem handleText_error_is_json (payload : Option Json) (e : Error)
    (h : handleText payload = some (Except.error e)) : ∃ s, e = Error.Json s := by
  match payload with
  | none => exact ⟨"invalid JSON", by simpa [handleText] using h.symm⟩
  | some (.arr []) => simp [handleText] at h
  | some (.arr (first :: rest)) =>
      cases hd : decodeWsEvent first <;>
        simp [handleText, hd] at h
      exact ⟨_, h.symm⟩
  | some (.null) =>
      refine ⟨"expected a JSON object", ?_⟩
      simpa [handleText, decodeWsEvent] using h.symm
  | some (.bool b) =>
      refine ⟨"expected a JSON object", ?_⟩
      simpa [handleText, decodeWsEvent] using h.symm
  | some (.num q) =>
      refine ⟨"expected a JSON object", ?_⟩
      simpa [handleText, decodeWsEvent] using h.symm
  | some (.str s) =>
      refine ⟨"expected a JSON object", ?_⟩
      simpa [handleText, decodeWsEvent] using h.symm
  | some (.obj fields) =>
      cases hd : decodeWsEvent (.obj fields) <;>
        simp [handleText, hd] at h
      exact ⟨_, h.symm⟩

/-- C8: an undecodable text frame (not valid JSON, a non-array value that
fails event decoding, or an array whose first element fails event decoding)
and an unexpected binary frame each produce exactly one error item, and the
session continues: the surrounding frames are processed exactly as without
the offending frame. -/
theorem local_errors_do_not_terminate :
    processMsg (Except.ok Message.binary)
      = some (Except.error (Error.WebSocket "Unexpected binary message")) ∧
    processMsg (Except.ok (Message.text none))
      = some (Except.error (Error.Json "invalid JSON")) ∧
    (∀ (j : Json) (s : String), (∀ xs, j ≠ Json.arr xs) →
        decodeWsEvent j = Except.error s →
        processMsg (Except.ok (Message.text (some j)))
          = some (Except.error (Error.Json s))) ∧
    (∀ (first : Json) (rest : List Json) (s : String),
        decodeWsEvent first = Except.error s →
        processMsg (Except.ok (Message.text (some (Json.arr (first :: rest)))))
          = some (Except.error (Error.Json s))) ∧
    ∀ (m : Except String Message) (e : Error)
      (pre post : List (Except String Message)),
      processMsg m = some (Except.error e) →
      processFrames (pre ++ m :: post)
        = processFrames pre ++ Except.error e :: processFrames post := by
  refine ⟨rfl, rfl, ?_, ?_, ?_⟩
  · intro j s hna hd
    match j with
    | .arr xs => exact absurd rfl (hna xs)
    | .null => simp [processMsg, handleText, hd]
    | .bool b => simp [processMsg, handleText, hd]
    | .num q => simp [processMsg, handleText, hd]
    | .str t => simp [processMsg, handleText, hd]
    | .obj fields => simp [processMsg, handleText, hd]
  · intro first rest s hd
    simp [processMsg, handleText, hd]
  · intro m e pre post h
    simp [processFrames, List.filterMap_append, List.filterMap_cons, h]

/-- C8, witness: a binary frame between two close frames yields its single
error item with the neighbouring frames processed unchanged. -/
theorem local_errors_do_not_terminate_witness :
    processFrames
        [Except.ok Message.close, Except.ok Message.binary, Except.ok Message.close]
      = processFrames [Except.ok Message.close]
          ++ Except.error (Error.WebSocket "Unexpected binary message")
            :: processFrames [Except.ok Message.close] :=
  local_errors_do_not_terminate.2.2.2.2 (Except.ok Message.binary)
    (Error.WebSocket "Unexpected binary message")
    [Except.ok Message.close] [Except.ok Message.close] rfl

/-- C10: every error item the subscribe stream produces is one of exactly
three variants — `Json` for a failed event decode, `ConnectionClosed` for a
close frame, or `WebSocket` for everything else — and an unexpected binary
frame and a transport-level read error both surface as the `WebSocket`
variant, indistinguishable by kind to the consumer. -/
theorem error_variant_classification :
    (∀ (m : Except String Message) (e : Error),
        processMsg m = some (Except.error e) →
        (∃ s, e = Error.Json s) ∨ e = Error.ConnectionClosed ∨
          ∃ s, e = Error.WebSocket s) ∧
    processMsg (Except.ok Message.binary)
      = some (Except.error (Error.WebSocket "Unexpected binary message")) ∧
    ∀ s, processMsg (Except.error s) = some (Except.error (Error.WebSocket s)) := by
  refine ⟨?_, rfl, fun s => rfl⟩
  intro m e h
  match m with
  | .error s =>
      refine Or.inr (Or.inr ⟨s, ?_⟩)
      simpa [processMsg] using h.symm
  | .ok (.text payload) =>
      exact Or.inl (handleText_error_is_json payload e (by simpa [processMsg] using h))
  | .ok .close =>
      refine Or.inr (Or.inl ?_)
      simpa [processMsg] using h.symm
  | .ok .ping => simp [processMsg] at h
  | .ok .pong => simp [processMsg] at h
  | .ok .frame => simp [processMsg] at h
  | .ok .binary =>
      refine Or.inr (Or.inr ⟨"Unexpected binary message", ?_⟩)
      simpa [processMsg] using h.symm

/-- C10, witness at the close frame. -/
theorem error_variant_classification_witness :
    (∃ s, Error.ConnectionClosed = Error.Json s) ∨
      Error.ConnectionClosed = Error.ConnectionClosed ∨
      ∃ s, Error.ConnectionClosed = Error.WebSocket s :=
  error_variant_classification.1 (Except.ok Message.close) Error.ConnectionClosed rfl

/-- C9: on a successful call of `MarketWsClient::subscribe` exactly one
outbound frame is written per connection — the JSON serialization of the
subscription, an object with the single key `assets_ids` holding the
identifier strings — immediately after the connect action and before any
inbound frame is processed, with no further writes in the session. -/
theorem single_subscription_frame (url : String) (token_ids : List String) :
    MarketWsClient.subscribe (MarketWsClient.with_url url) token_ids
      = [WsAction.connect url,
         WsAction.sendText
           (Json.obj [("assets_ids", Json.arr (token_ids.map Json.str))]),
         WsAction.processInbound] ∧
    List.filter WsAction.isSend
        (MarketWsClient.subscribe (MarketWsClient.with_url url) token_ids)
      = [WsAction.sendText
           (Json.obj [("assets_ids", Json.arr (token_ids.map Json.str))])] :=
  ⟨rfl, rfl⟩

namespace ReconnectingStream

/-- A step never changes the captured subscription identifiers. -/
theorem step_subIds (cfg : ReconnectConfig) (s : DriverState) (i : DriverInput) :
    ((step cfg s i).1).subIds = s.subIds := by
  obtain ⟨ph, d, a, ids⟩ := s
  cases ph <;> cases i <;> simp [step] <;> split <;> simp

/-- A run never changes the captured subscription identifiers. -/
theorem run_subIds (cfg : ReconnectConfig) (s : DriverState)
    (t : List DriverInput) : ((run cfg s t).1).subIds = s.subIds := by
  induction t generalizing s with
  | nil => rfl
  | cons i rest ih =>
      simp only [run]
      exact (ih (step cfg s i).1).trans (step_subIds cfg s i)

/-- Every factory invocation a step emits carries the state's captured
subscription identifiers. -/
theorem step_invoke (cfg : ReconnectConfig) (s : DriverState) (i : DriverInput)
    (ids2 : List String) (h : Effect.invoke ids2 ∈ (step cfg s i).2) :
    ids2 = s.subIds := by
  obtain ⟨ph, d, a, ids⟩ := s
  cases ph <;> cases i <;> simp only [step] at h <;>
    (try split at h) <;> (try split at h) <;>
    (try simp at h) <;> simp_all

/-- Splitting a run over list concatenation. -/
theorem run_append (cfg : ReconnectConfig) (s : DriverState)
    (t1 t2 : List DriverInput) :
    run cfg s (t1 ++ t2)
      = ((run cfg (run cfg s t1).1 t2).1,
         (run cfg s t1).2 ++ (run cfg (run cfg s t1).1 t2).2) := by
  induction t1 generalizing s with
  | nil => simp [run]
  | cons i rest ih => simp [run, ih]

/-- The exhausted phase is absorbing and silent. -/
theorem step_exhausted (cfg : ReconnectConfig) (s : DriverState)
    (i : DriverInput) (h : s.phase = .exhausted) : step cfg s i = (s, []) := by
  obtain ⟨ph, d, a, ids⟩ := s
  simp only at h
  subst h
  cases i <;> rfl

/-- Every factory invocation a run emits carries the starting state's
captured subscription identifiers. -/
theorem run_invoke (cfg : ReconnectConfig) (s : DriverState)
    (t : List DriverInput) (ids2 : List String)
    (h : Effect.invoke ids2 ∈ (run cfg s t).2) : ids2 = s.subIds := by
  induction t generalizing s with
  | nil => simp [run] at h
  | cons i rest ih =>
      simp only [run, List.mem_append] at h
      rcases h with h | h
      · exact step_invoke cfg s i ids2 h
      · exact (ih (step cfg s i).1 h).trans (step_subIds cfg s i)

/-- A step preserves the invariant that a streaming state carries a freshly
reset Backoff State. -/
theorem step_streaming_reset (cfg : ReconnectConfig) (s : DriverState)
    (i : DriverInput)
    (h : s.phase = .streaming → s.delay = cfg.initial_delay ∧ s.attempts = 0) :
    ((step cfg s i).1).phase = .streaming →
      ((step cfg s i).1).delay = cfg.initial_delay ∧
        ((step cfg s i).1).attempts = 0 := by
  obtain ⟨ph, d, a, ids⟩ := s
  cases ph <;> cases i <;> simp only [step] <;>
    (try split) <;> (try split) <;> intro hs <;> simp_all

/-- A run preserves the invariant that a streaming state carries a freshly
reset Backoff State. -/
theorem run_streaming_reset (cfg : ReconnectConfig) (s : DriverState)
    (t : List DriverInput)
    (h : s.phase = .streaming → s.delay = cfg.initial_delay ∧ s.attempts = 0) :
    ((run cfg s t).1).phase = .streaming →
      ((run cfg s t).1).delay = cfg.initial_delay ∧
        ((run cfg s t).1).attempts = 0 := by
  induction t generalizing s with
  | nil => simpa [run] using h
  | cons i rest ih =>
      simp only [run]
      exact ih (step cfg s i).1 (step_streaming_reset cfg s i h)

/-- Under a finite cap a step keeps the attempt counter within the cap, and
strictly below it in the phases that can still grow it. -/
theorem step_cap_inv (cfg : ReconnectConfig) (N : Nat)
    (hN : cfg.max_attempts = some N) (s : DriverState) (i : DriverInput)
    (h1 : s.attempts ≤ N)
    (h2 : s.phase = .connecting ∨ s.phase = .streaming → s.attempts < N) :
    ((step cfg s i).1).attempts ≤ N ∧
      (((step cfg s i).1).phase = .connecting ∨
          ((step cfg s i).1).phase = .streaming →
        ((step cfg s i).1).attempts < N) := by
  obtain ⟨ph, d, a, ids⟩ := s
  cases ph <;> cases i <;> simp only [step] <;>
    (try split) <;> (try split) <;>
    (try simp_all [capReached]) <;> omega

/-- Under a finite cap the attempt counter never exceeds the cap. -/
theorem run_cap_inv (cfg : ReconnectConfig) (N : Nat)
    (hN : cfg.max_attempts = some N) (s : DriverState) (t : List DriverInput)
    (h1 : s.attempts ≤ N)
    (h2 : s.phase = .connecting ∨ s.phase = .streaming → s.attempts < N) :
    ((run cfg s t).1).attempts ≤ N := by
  induction t generalizing s with
  | nil => simpa [run] using h1
  | cons i rest ih =>
      simp only [run]
      have hh := step_cap_inv cfg N hN s i h1 h2
      exact ih (step cfg s i).1 hh.1 hh.2

/-- Without an intervening success, a step emits no more reconnect errors
than it adds to the attempt counter. -/
theorem step_reErr_count (cfg : ReconnectConfig) (s : DriverState)
    (i : DriverInput) (h : i ≠ DriverInput.factoryOk) :
    s.attempts + List.countP Effect.isReErr (step cfg s i).2
      ≤ ((step cfg s i).1).attempts := by
  obtain ⟨ph, d, a, ids⟩ := s
  cases ph <;> cases i <;> simp only [step] <;>
    (try split) <;> (try split) <;>
    simp_all [Effect.isReErr, List.countP_cons, List.countP_nil,
      List.countP_append]

/-- Without an intervening success, a run emits no more reconnect errors
than it adds to the attempt counter. -/
theorem run_reErr_count (cfg : ReconnectConfig) (s : DriverState)
    (t : List DriverInput) (h : DriverInput.factoryOk ∉ t) :
    s.attempts + List.countP Effect.isReErr (run cfg s t).2
      ≤ ((run cfg s t).1).attempts := by
  induction t generalizing s with
  | nil => simp [run]
  | cons i rest ih =>
      simp only [run, List.countP_append]
      have hi : i ≠ DriverInput.factoryOk := by
        intro he
        subst he
        exact h (List.mem_cons_self _ _)
      have hrest : DriverInput.factoryOk ∉ rest :=
        fun hm => h (List.mem_cons_of_mem i hm)
      have hs := step_reErr_count cfg s i hi
      have hr := ih (step cfg s i).1 hrest
      omega

/-- With an unbounded policy a step never exhausts. -/
theorem step_no_exhaust (cfg : ReconnectConfig)
    (hN : cfg.max_attempts = none) (s : DriverState) (i : DriverInput)
    (h : s.phase ≠ .exhausted) : ((step cfg s i).1).phase ≠ .exhausted := by
  obtain ⟨ph, d, a, ids⟩ := s
  cases ph <;> cases i <;> simp_all [step, capReached]

/-- With an unbounded policy a run never exhausts. -/
theorem run_no_exhaust (cfg : ReconnectConfig)
    (hN : cfg.max_attempts = none) (s : DriverState) (t : List DriverInput)
    (h : s.phase ≠ .exhausted) : ((run cfg s t).1).phase ≠ .exhausted := by
  induction t generalizing s with
  | nil => simpa [run] using h
  | cons i rest ih =>
      simp only [run]
      exact ih (step cfg s i).1 (step_no_exhaust cfg hN s i h)

/-- Closed form of the iterated backoff growth
`next = min(max_delay, current * multiplier)` started at the initial
delay. -/
theorem iterate_nextDelay (cfg : ReconnectConfig) (hm : 1 ≤ cfg.multiplier)
    (h0 : 0 ≤ cfg.initial_delay) (hle : cfg.initial_delay ≤ cfg.max_delay) :
    ∀ k : Nat, (nextDelay cfg)^[k] cfg.initial_delay
      = min cfg.max_delay (cfg.initial_delay * cfg.multiplier ^ k) := by
  intro k
  induction k with
  | zero => simp [min_eq_right hle]
  | succ k ih =>
      rw [Function.iterate_succ_apply', ih, nextDelay]
      rcases le_total (cfg.initial_delay * cfg.multiplier ^ k) cfg.max_delay
        with h | h
      · rw [min_eq_right h, pow_succ, ← mul_assoc]
      · have hd0 : (0:ℚ) ≤ cfg.max_delay := le_trans h0 hle
        have hxm : (0:ℚ) ≤ cfg.initial_delay * cfg.multiplier ^ k :=
          mul_nonneg h0 (pow_nonneg (le_trans zero_le_one hm) k)
        have h1 : cfg.max_delay ≤ cfg.max_delay * cfg.multiplier :=
          le_mul_of_one_le_right hd0 hm
        have h2 : cfg.max_delay ≤ cfg.initial_delay * cfg.multiplier ^ (k + 1) := by
          calc cfg.max_delay ≤ cfg.initial_delay * cfg.multiplier ^ k := h
            _ ≤ cfg.initial_delay * cfg.multiplier ^ k * cfg.multiplier :=
                le_mul_of_one_le_right hxm hm
            _ = cfg.initial_delay * cfg.multiplier ^ (k + 1) := by
                rw [pow_succ]
                ring
        rw [min_eq_left h, min_eq_left h1, min_eq_left h2]

/-- State of the Driver after `k` consecutive failed connection attempts,
for any policy whose cap does not cut the trace short. -/
theorem run_failTrace (cfg : ReconnectConfig) (ids : List String) (e : Error)
    (k : Nat) (hcap : ∀ j, j < k → capReached cfg j = false) :
    (run cfg (initState cfg ids) (failTrace e k)).1
      = { phase :=
            if k = 0 then Phase.idle
            else if capReached cfg k then Phase.exhausted else Phase.backoff,
          delay := (nextDelay cfg)^[k] cfg.initial_delay,
          attempts := k, subIds := ids } := by
  induction k with
  | zero => simp [run, failTrace, initState]
  | succ k ih =>
      rw [failTrace, run_append, ih (fun j hj => hcap j (Nat.lt_succ_of_lt hj))]
      have hk : capReached cfg k = false := hcap k (Nat.lt_succ_self k)
      by_cases hk1 : capReached cfg (k + 1) = true <;>
        cases k <;>
          simp [run, step, hk, hk1, Function.iterate_succ_apply']

end ReconnectingStream

/-- C1: with multiplier above one, a nonnegative initial delay within the
max delay, and an unbounded policy, the delay armed after `k` consecutive
failed connection attempts equals `min(dmax, d0 * m^k)`; equivalently each
failed attempt updates the delay by `next = min(max_delay, current *
multiplier)`. -/
theorem backoff_delay_formula (cfg : ReconnectConfig) (ids : List String)
    (e : Error) (k : Nat) (hm : 1 < cfg.multiplier)
    (h0 : 0 ≤ cfg.initial_delay) (hle : cfg.initial_delay ≤ cfg.max_delay)
    (hN : ∀ N, cfg.max_attempts = some N → k ≤ N) :
    ((ReconnectingStream.run cfg (ReconnectingStream.initState cfg ids)
        (ReconnectingStream.failTrace e k)).1).delay
      = min cfg.max_delay (cfg.initial_delay * cfg.multiplier ^ k) ∧
    ∀ s : DriverState, s.phase = .connecting →
      ((ReconnectingStream.step cfg s (DriverInput.factoryErr e)).1).delay
        = min cfg.max_delay (s.delay * cfg.multiplier) := by
  constructor
  · have hcap : ∀ j, j < k → capReached cfg j = false := by
      intro j hj
      cases hc : cfg.max_attempts with
      | none => simp [capReached, hc]
      | some N =>
          have hkN := hN N hc
          simp [capReached, hc]
          omega
    rw [ReconnectingStream.run_failTrace cfg ids e k hcap]
    exact ReconnectingStream.iterate_nextDelay cfg (le_of_lt hm) h0 hle k
  · intro s hs
    obtain ⟨ph, d, a, ids2⟩ := s
    simp only at hs
    subst hs
    simp only [ReconnectingStream.step]
    split <;> rfl

/-- C1, witness: policy (1, 30, x2, unbounded) after three failures arms
`min(30, 8) = 8`. -/
theorem backoff_delay_formula_witness :
    ((ReconnectingStream.run ⟨1, 30, 2, none⟩
        (ReconnectingStream.initState ⟨1, 30, 2, none⟩ [])
        (ReconnectingStream.failTrace Error.ConnectionClosed 3)).1).delay
      = min (30:ℚ) (1 * 2 ^ 3) :=
  (backoff_delay_formula ⟨1, 30, 2, none⟩ [] Error.ConnectionClosed 3
    (by norm_num) (by norm_num) (by norm_num) (fun N h => Option.noConfusion h)).1

/-- C2: with `max_attempts = N` the attempt counter never exceeds `N` and
(absent an intervening success) at most `N` reconnect-triggering errors are
emitted; the exhausted phase is terminal and produces no further items, not
even errors; with `max_attempts = None` the Driver never exhausts. -/
theorem attempt_cap_bounds :
    (∀ (cfg : ReconnectConfig) (ids : List String) (N : Nat),
        cfg.max_attempts = some N → ∀ t : List DriverInput,
        ((ReconnectingStream.run cfg (ReconnectingStream.initState cfg ids)
            t).1).attempts ≤ N ∧
          (DriverInput.factoryOk ∉ t →
            List.countP Effect.isReErr
                (ReconnectingStream.run cfg
                  (ReconnectingStream.initState cfg ids) t).2 ≤ N)) ∧
    (∀ (cfg : ReconnectConfig) (s : DriverState) (i : DriverInput),
        s.phase = .exhausted → ReconnectingStream.step cfg s i = (s, [])) ∧
    ∀ (cfg : ReconnectConfig) (ids : List String),
      cfg.max_attempts = none → ∀ t : List DriverInput,
        ((ReconnectingStream.run cfg (ReconnectingStream.initState cfg ids)
            t).1).phase ≠ .exhausted := by
  refine ⟨?_, ReconnectingStream.step_exhausted, ?_⟩
  · intro cfg ids N hN t
    have hcap := ReconnectingStream.run_cap_inv cfg N hN
      (ReconnectingStream.initState cfg ids) t (Nat.zero_le N)
      (by intro hc; rcases hc with hc | hc <;> simp [ReconnectingStream.initState] at hc)
    refine ⟨hcap, ?_⟩
    intro hnot
    have hcount := ReconnectingStream.run_reErr_count cfg
      (ReconnectingStream.initState cfg ids) t hnot
    have h0 : (ReconnectingStream.initState cfg ids).attempts = 0 := rfl
    omega
  · intro cfg ids hN t
    exact ReconnectingStream.run_no_exhaust cfg hN
      (ReconnectingStream.initState cfg ids) t
      (by simp [ReconnectingStream.initState])

/-- C2, witness: an unbounded policy does not exhaust after a failure. -/
theorem attempt_cap_bounds_witness :
    ((ReconnectingStream.run ⟨1, 30, 2, none⟩
        (ReconnectingStream.initState ⟨1, 30, 2, none⟩ [])
        [DriverInput.poll, DriverInput.factoryErr Error.ConnectionClosed]).1).phase
      ≠ Phase.exhausted :=
  attempt_cap_bounds.2.2 ⟨1, 30, 2, none⟩ [] rfl
    [DriverInput.poll, DriverInput.factoryErr Error.ConnectionClosed]

/-- C3: whenever the Driver is in the streaming phase — entered only by a
successful factory invocation — its Backoff State holds the initial delay
and zero attempts, regardless of how many failures occurred before. -/
theorem success_resets_backoff (cfg : ReconnectConfig) (ids : List String)
    (t : List DriverInput)
    (h : ((ReconnectingStream.run cfg (ReconnectingStream.initState cfg ids)
        t).1).phase = .streaming) :
    ((ReconnectingStream.run cfg (ReconnectingStream.initState cfg ids)
        t).1).delay = cfg.initial_delay ∧
      ((ReconnectingStream.run cfg (ReconnectingStream.initState cfg ids)
        t).1).attempts = 0 :=
  ReconnectingStream.run_streaming_reset cfg
    (ReconnectingStream.initState cfg ids) t
    (by intro hc; simp [ReconnectingStream.initState] at hc) h

/-- C3, witness: a poll followed by a successful factory invocation lands in
streaming with the initial delay and zero attempts. -/
theorem success_resets_backoff_witness :
    ((ReconnectingStream.run ⟨1, 30, 2, none⟩
        (ReconnectingStream.initState ⟨1, 30, 2, none⟩ [])
        [DriverInput.poll, DriverInput.factoryOk]).1).delay = (1:ℚ) ∧
      ((ReconnectingStream.run ⟨1, 30, 2, none⟩
        (ReconnectingStream.initState ⟨1, 30, 2, none⟩ [])
        [DriverInput.poll, DriverInput.factoryOk]).1).attempts = 0 :=
  success_resets_backoff ⟨1, 30, 2, none⟩ []
    [DriverInput.poll, DriverInput.factoryOk] rfl

/-- C7: a close frame yields exactly one `ConnectionClosed` error item; in
the Driver, an inner-stream end with that cause moves a streaming state to
backoff, emitting the error once and arming the timer for the freshly grown
backoff delay; the next poll then invokes the factory again, and every
factory invocation of a run carries exactly the original subscription
identifiers. -/
theorem close_frame_reconnect :
    processMsg (Except.ok Message.close)
      = some (Except.error Error.ConnectionClosed) ∧
    (∀ (cfg : ReconnectConfig) (s : DriverState), s.phase = .streaming →
        capReached cfg (s.attempts + 1) = false →
        ReconnectingStream.step cfg s
            (DriverInput.innerEnd (some Error.ConnectionClosed))
          = ({ s with
                phase := .backoff,
                delay := nextDelay cfg s.delay,
                attempts := s.attempts + 1 },
             [Effect.reErr Error.ConnectionClosed,
              Effect.sleep (nextDelay cfg s.delay)])) ∧
    (∀ (cfg : ReconnectConfig) (s : DriverState), s.phase = .backoff →
        capReached cfg s.attempts = false →
        ReconnectingStream.step cfg s DriverInput.poll
          = ({ s with phase := .connecting }, [Effect.invoke s.subIds])) ∧
    ∀ (cfg : ReconnectConfig) (ids : List String) (t : List DriverInput)
      (ids2 : List String),
      Effect.invoke ids2 ∈
          (ReconnectingStream.run cfg (ReconnectingStream.initState cfg ids)
            t).2 →
      ids2 = ids := by
  refine ⟨rfl, ?_, ?_, ?_⟩
  · intro cfg s hs hc
    obtain ⟨ph, d, a, ids⟩ := s
    simp only at hs
    subst hs
    simp [ReconnectingStream.step, hc]
  · intro cfg s hs hc
    obtain ⟨ph, d, a, ids⟩ := s
    simp only at hs
    subst hs
    simp [ReconnectingStream.step, hc]
  · intro cfg ids t ids2 h
    exact ReconnectingStream.run_invoke cfg
      (ReconnectingStream.initState cfg ids) t ids2 h

/-- C7, witness: the streaming-to-backoff transition at a concrete state. -/
theorem close_frame_reconnect_witness :
    ReconnectingStream.step ⟨1, 30, 2, none⟩
        ⟨Phase.streaming, 1, 0, ["a"]⟩
        (DriverInput.innerEnd (some Error.ConnectionClosed))
      = (⟨Phase.backoff, nextDelay ⟨1, 30, 2, none⟩ 1, 1, ["a"]⟩,
         [Effect.reErr Error.ConnectionClosed,
          Effect.sleep (nextDelay ⟨1, 30, 2, none⟩ 1)]) :=
  close_frame_reconnect.2.1 ⟨1, 30, 2, none⟩ ⟨Phase.streaming, 1, 0, ["a"]⟩
    rfl rfl

end PolymarketRs
